import Mathlib

/-!
Verification development for the clib dependency build/install engine
(`src/clib-install.c` and the build tool `clib-build.c`).

The C sources are shallowly embedded: each definition below mirrors one
function (or one clearly delimited region) of the C code, with external
collaborators (network fetch, the slug resolver, `system`) abstracted as
input data, and machine side effects (the filesystem, the shared `built`
hash) made explicit state.  Error numbers follow the source:
`-ENOENT = -2`, `-ENOMEM = -12`.
-/

namespace Clib

/-! ## JSON documents (parson, as used by `write_dependency_with_package_name`)

A manifest document is a JSON value; for the merge protocol only strings
and objects matter, and an object is an ordered association list, exactly
parson's representation.  `objGet` mirrors `json_object_get_value` (first
match), `objSet` mirrors `json_object_set_value` / `json_object_set_string`
(replace in place when the key exists, append otherwise). -/

inductive JVal where
  | str : String → JVal
  | obj : List (String × JVal) → JVal

def objGet : List (String × JVal) → String → Option JVal
  | [], _ => none
  | (k, v) :: rest, q => if k = q then some v else objGet rest q

def objSet : List (String × JVal) → String → JVal → List (String × JVal)
  | [], q, v => [(q, v)]
  | (k, w) :: rest, q, v => if k = q then (q, v) :: rest else (k, w) :: objSet rest q v

/-- The dependency section object located by `json_object_dotget_object`
(line 199 of clib-install.c): the object stored under the section key, or a
freshly created empty object when the key is absent or not an object. -/
def getSectionObj (o : List (String × JVal)) (sec : String) : List (String × JVal) :=
  match objGet o sec with
  | some (.obj d) => d
  | _ => []

/-- The document transformation of `write_dependency_with_package_name`
(clib-install.c lines 189-214): locate or create the section object, set
`repo -> version` in it, and store the section back (parson mutates the
nested object in place; `objSet` keeps its position, so this is the same
document). -/
def mergeDep (o : List (String × JVal)) (sec repo ver : String) : List (String × JVal) :=
  objSet o sec (.obj (objSet (getSectionObj o sec) repo (.str ver)))

mutual
/-- A deterministic serialization of a JSON value, standing for
`json_serialize_to_file_pretty`: equal documents give byte-identical
files.  (Braces are written with escapes only for lexical reasons.) -/
def serializeV : JVal → String
  | .str s => "\x22" ++ s ++ "\x22"
  | .obj o => "\x7b" ++ serializeFields o ++ "\x7d"

def serializeFields : List (String × JVal) → String
  | [] => ""
  | (k, v) :: rest => "\x22" ++ k ++ "\x22:" ++ serializeV v ++ "," ++ serializeFields rest
end

/-- The manifest filesystem: filename to parsed content, for the files that
exist and parse.  `json_parse_file` on a missing or unparseable file
returns NULL, which is exactly a failed lookup here. -/
abbrev MFs := List (String × JVal)

def serializeFs : MFs → String
  | [] => ""
  | (n, v) :: rest => n ++ "=" ++ serializeV v ++ ";" ++ serializeFs rest

/-- `write_dependency_with_package_name` (clib-install.c lines 189-214) at
the file level: parse the file (fail with 1 when missing, unparseable, or
not a JSON object — `json_object` returns NULL then), merge the dependency,
and write the document back.  Nothing on disk changes on failure. -/
def writeDepFile (fs : MFs) (name sec repo ver : String) : Int × MFs :=
  match objGet fs name with
  | some (.obj o) => (0, objSet fs name (.obj (mergeDep o sec repo ver)))
  | _ => (1, fs)

/-- `write_dependency` (clib-install.c lines 219-230): try `clib.json`
first, then `package.json`, stopping at the first success; the result code
is the last attempt's. -/
def writeDependency (fs : MFs) (sec repo ver : String) : Int × MFs :=
  let r1 := writeDepFile fs "clib.json" sec repo ver
  if r1.1 = 0 then r1 else writeDepFile r1.2 "package.json" sec repo ver

/-! ## The install orchestrator loop (`install_packages`) -/

/-- `install_packages` (clib-install.c lines 333-342), with each
argument's `install_package` outcome supplied as input (resolution and
fetch are external collaborators).  Returns the exit code and the number
of arguments actually processed: the loop stops with exit code 1 at the
first argument whose result is `-1`, and returns 0 otherwise. -/
def installPackagesModel : List Int → Int × Nat
  | [] => (0, 0)
  | r :: rest =>
    if r = -1 then (1, 1)
    else ((installPackagesModel rest).1, (installPackagesModel rest).2 + 1)

/-! ## Identity back-fill (`install_package`, clib-install.c lines 308-318) -/

/-- A heap character buffer as produced by the back-fill code: its bytes,
and whether a terminating NUL was written inside the allocation (so that
reading it back as a C string is well defined). -/
structure CStr where
  bytes : List Char
  nulTerminated : Bool
deriving DecidableEq

/-- The buffer built for `pkg->repo` from the install argument: with an
`'@'` present the code does `malloc(length)` and `memcpy(length)` for
`length` = the offset of the first `'@'` — exactly the prefix bytes and
no terminator — and otherwise `strdup(slug)`, which is terminated. -/
def deriveRepoBuf (slug : String) : CStr :=
  match slug.toList.findIdx? (fun c => c == '@') with
  | some len => ⟨slug.toList.take len, false⟩
  | none => ⟨slug.toList, true⟩

/-- The back-fill condition and assignment of clib-install.c lines
308-318: when `pkg->repo` is NULL or differs from the argument, `pkg->repo`
is replaced by `deriveRepoBuf slug`; `none` means the field is left
untouched. -/
def backfillRepo (slug : String) (repo : Option (List Char)) : Option CStr :=
  match repo with
  | some r => if r = slug.toList then none else some (deriveRepoBuf slug)
  | none => some (deriveRepoBuf slug)

/-! ## The bounded-concurrency batch (clib-build.c lines 237-279)

The dependency batch loop of `build_package_with_package_name`, generic in
the item type and the shared state.  `seqBatch` is the loop as compiled
without HAVE_PTHREADS: run the worker, and on a non-zero result `goto
cleanup` with that result.  `thrBatch` is the loop as compiled with
HAVE_PTHREADS, at the canonical interleaving in which worker effects land
in submission order: every item is launched, `rc` is the
`pthread_create` status (0 — thread creation is assumed to succeed), and
`pthread_join(thread, 0)` discards each worker's return value, so worker
results never reach `rc`.  Wave boundaries (a join every `concurrency`
submissions) do not change either the final state or the returned code,
so they are not represented. -/

def seqBatch (w : α → σ → Int × σ) : List α → σ → Int × σ
  | [], st => (0, st)
  | a :: rest, st =>
    let r := w a st
    if r.1 = 0 then seqBatch w rest r.2 else r

def thrBatch (w : α → σ → Int × σ) : List α → σ → Int × σ
  | [], st => (0, st)
  | a :: rest, st => thrBatch w rest (w a st).2

/-! ## The deduplication registry race (clib-build.c lines 129-142, 190-212)

Two tasks process the same path.  Each task runs three atomic steps,
matching the mutex structure of `build_package_with_package_name`:

* `pc = 0` — the guarded check (lines 130-142): `pthread_mutex_lock`,
  `hash_has(built, path)`, unlock; if the key is present the task skips
  everything (`goto cleanup`).
* `pc = 1` — the build/install work (lines 144-188), done with no lock
  held.
* `pc = 2` — the guarded set (lines 190-212): lock, `hash_set(built,
  path, ...)`, unlock.

The check and the set are separate critical sections in the source, so
the model makes them separate atomic steps with the work in between. -/

structure DTask where
  pc : Nat
  skipped : Bool
  workDone : Bool

structure DSys where
  claimed : Bool
  t0 : DTask
  t1 : DTask

def dInit : DSys := ⟨false, ⟨0, false, false⟩, ⟨0, false, false⟩⟩

def dTaskStep (claimed : Bool) (t : DTask) : Bool × DTask :=
  if t.pc = 0 then
    if claimed then (claimed, { t with pc := 3, skipped := true })
    else (claimed, { t with pc := 1 })
  else if t.pc = 1 then (claimed, { t with pc := 2, workDone := true })
  else if t.pc = 2 then (true, { t with pc := 3 })
  else (claimed, t)

/-- One scheduler step: `false` runs task 0, `true` runs task 1. -/
def dStep (s : DSys) (i : Bool) : DSys :=
  if i then
    let r := dTaskStep s.claimed s.t1
    { s with claimed := r.1, t1 := r.2 }
  else
    let r := dTaskStep s.claimed s.t0
    { s with claimed := r.1, t0 := r.2 }

def dRun (sched : List Bool) : DSys := sched.foldl dStep dInit

/-- The per-task invariant: a task that skipped is finished and never did
the work, and a task still before its check has done nothing. -/
def dInv (t : DTask) : Prop :=
  (t.skipped = true → t.pc = 3 ∧ t.workDone = false) ∧
  (t.pc = 0 → t.workDone = false ∧ t.skipped = false)

/-! ## The build tool (clib-build.c), sequential semantics

The recursion of `build_package` / `build_package_with_package_name` as
compiled without HAVE_PTHREADS (the strictly sequential variant; the
threaded dependency batch is `thrBatch` above).  External collaborators
are inputs:

* `files` — the filesystem, mapping a manifest path to its state: absent
  (`fs_exists` returns -1), present but unparseable (`clib_package_new`
  returns NULL), or a parsed package;
* `depName` — `clib_package_new_from_slug(slug, 0)->name`, the resolver
  consulted only to compute a dependency's directory;
* `sysRc` — the `system(command)` exit status for the build command run
  at a given manifest path;
* `outDir`, `dev` — `opts.dir` and `opts.dev`.

The shared state is the `built` hash (path to `"t"`/`"f"`, here a
boolean) plus an instrumentation log recording each path whose
build/install work (manifest parse and build invocation) was executed,
in execution order. -/

structure CDep where
  author : String
  name : String
  version : String

structure CPkg where
  makefile : Option String
  deps : List CDep
  devDeps : List CDep

inductive CFile where
  | bad : CFile
  | pkg : CPkg → CFile

structure BEnv where
  files : List (String × CFile)
  depName : String → String
  sysRc : String → Int
  outDir : String
  dev : Bool

structure BSt where
  built : List (String × Bool)
  log : List String

/-- `path_join(dir, file)`. -/
def pathJoin (a b : String) : String := a ++ "/" ++ b

/-- The slug `author/name@version` built for a dependency (clib-build.c
line 229). -/
def depSlug (d : CDep) : String := d.author ++ "/" ++ d.name ++ "@" ++ d.version

/-- `hash_has` on the `built` registry. -/
def hashHas : List (String × Bool) → String → Bool
  | [], _ => false
  | (k, _) :: rest, q => if k = q then true else hashHas rest q

/-- `hash_set` on the `built` registry: replace the value of an existing
key in place, append a new key at the end. -/
def hashSet : List (String × Bool) → String → Bool → List (String × Bool)
  | [], q, v => [(q, v)]
  | (k, w) :: rest, q, v => if k = q then (q, v) :: rest else (k, w) :: hashSet rest q v

/-- Filesystem lookup for a manifest path (first match). -/
def lookupFile : List (String × CFile) → String → Option CFile
  | [], _ => none
  | (k, f) :: rest, q => if k = q then some f else lookupFile rest q

/-- The directory of a dependency: `path_join(opts.dir, dependency->name)`
(clib-build.c line 232). -/
def depDir (env : BEnv) (d : CDep) : String :=
  pathJoin env.outDir (env.depName (depSlug d))

/-- The sequential dependency loop (clib-build.c lines 226-272, without
HAVE_PTHREADS): build each dependency's directory in declaration order,
and on a non-zero result `goto cleanup` with that result.  `recur` is
`build_package`; `none` propagates exhausted recursion fuel. -/
def runDeps (env : BEnv) (recur : String → BSt → Option (Int × BSt)) :
    List CDep → BSt → Option (Int × BSt)
  | [], st => some (0, st)
  | d :: rest, st =>
    match recur (depDir env d) st with
    | none => none
    | some (rc, st') => if rc = 0 then runDeps env recur rest st' else some (rc, st')

/-- The `system(command)` status of the work step: the build command's
exit status when the package has a makefile (clib-build.c line 187), 0
otherwise (no command is run). -/
def buildRc (env : BEnv) (path : String) (p : CPkg) : Int :=
  match p.makefile with
  | some _ => env.sysRc path
  | none => 0

/-- What happens after the runtime dependency batch of
`build_package_with_package_name`: a failure inside the batch was
returned from the loop (`goto cleanup`); on success the development
batch runs when `--dev` is set (clib-build.c lines 284-352). -/
def afterDeps (env : BEnv) (recur : String → BSt → Option (Int × BSt))
    (p : CPkg) : Option (Int × BSt) → Option (Int × BSt)
  | none => none
  | some (rc1, st2) =>
    if rc1 = 0 then
      if env.dev then runDeps env recur p.devDeps st2 else some (0, st2)
    else some (rc1, st2)

/-- The work region of `build_package_with_package_name` for a parsed
package (clib-build.c lines 171-352), entered with the state `st1` in
which the path has just been recorded (`hash_set` happens in both the
makefile and the no-makefile branch, before any recursion): a non-zero
build status is returned without recursing (the check at line 205);
otherwise the runtime dependency batch runs, then possibly the
development one. -/
def bodyWork (env : BEnv) (recur : String → BSt → Option (Int × BSt))
    (path : String) (p : CPkg) (st1 : BSt) : Option (Int × BSt) :=
  if buildRc env path p = 0 then afterDeps env recur p (runDeps env recur p.deps st1)
  else some (buildRc env path p, st1)

/-- Dispatch on the state of the manifest file (clib-build.c lines
144-169): missing file → `-ENOENT`; present but yielding no package →
`-ENOMEM`; otherwise the work executes (logged) and the path is recorded
as `"t"` (makefile present: built) or `"f"` before any recursion. -/
def bodyDispatch (env : BEnv) (recur : String → BSt → Option (Int × BSt))
    (path : String) (st : BSt) : Option CFile → Option (Int × BSt)
  | none => some (-2, st)
  | some .bad => some (-12, st)
  | some (.pkg p) =>
    bodyWork env recur path p ⟨hashSet st.built path p.makefile.isSome, st.log ++ [path]⟩

/-- `build_package_with_package_name` (clib-build.c lines 116-361,
without HAVE_PTHREADS), with the recursive `build_package` call abstracted
as `recur`: join the path; if the `built` hash has it, return 0 at once
(lines 133-138); otherwise dispatch on the file. -/
def bodyFile (env : BEnv) (recur : String → BSt → Option (Int × BSt))
    (dir file : String) (st : BSt) : Option (Int × BSt) :=
  if hashHas st.built (pathJoin dir file) then some (0, st)
  else bodyDispatch env recur (pathJoin dir file) st
    (lookupFile env.files (pathJoin dir file))

/-- The do/while step of `build_package`: after the `clib.json` attempt,
a zero result stops; otherwise `package.json` is tried and its result
returned (clib-build.c lines 370-373). -/
def buildSecond (env : BEnv) (recur : String → BSt → Option (Int × BSt))
    (dir : String) : Option (Int × BSt) → Option (Int × BSt)
  | none => none
  | some (rc, st') =>
    if rc = 0 then some (0, st') else bodyFile env recur dir "package.json" st'

/-- `build_package` (clib-build.c lines 363-376): try `clib.json`, then
`package.json` while the result is non-zero; the fuel bounds the
recursion depth (`none` = fuel exhausted; the fuel needed is bounded in
terms of the filesystem, see the C10 theorem). -/
def buildPkg (env : BEnv) (fuel : Nat) (dir : String) (st : BSt) : Option (Int × BSt) :=
  match fuel with
  | 0 => none
  | n + 1 =>
    buildSecond env (fun d s => buildPkg env n d s) dir
      (bodyFile env (fun d s => buildPkg env n d s) dir "clib.json" st)

/-! ## The build tool's `main` (clib-build.c lines 455-618) -/

/-- The directory tried first for an argument (clib-build.c lines
567-575): arguments starting with `.` go through `realpath` (modelled as
the identity), the rest are joined onto the output directory. -/
def argPath (outDir : String) (a : String) : String :=
  if a.toList.head? = some '.' then a else pathJoin outDir a

/-- One argument of the loop at clib-build.c lines 567-583: build the
argument's directory and, on failure, retry the argument itself as a
slug; the retry's result replaces the first. -/
def buildAttempt (env : BEnv) (fuel : Nat) (a : String) (st : BSt) : Option (Int × BSt) :=
  match buildPkg env fuel (argPath env.outDir a) st with
  | none => none
  | some (rc, st') => if rc = 0 then some (0, st') else buildPkg env fuel a st'

/-- The argument loop itself: `rc` is overwritten by every iteration and
the value after the loop is returned (clib-build.c line 617). -/
def argsLoop (env : BEnv) (fuel : Nat) : List String → Int → BSt → Option (Int × BSt)
  | [], rc, st => some (rc, st)
  | a :: rest, _, st =>
    match buildAttempt env fuel a st with
    | none => none
    | some (rc', st') => argsLoop env fuel rest rc' st'

/-- The registry as `main` creates it (clib-build.c lines 475-476): a
sentinel entry whose value (the program version) does not start with
`'t'`, so it is never counted as built. -/
def initBSt : BSt := ⟨[("__clib-build__", false)], []⟩

/-- The summary count (clib-build.c lines 586-594): entries of the
`built` hash whose value starts with `'t'`. -/
def totalBuilt (st : BSt) : Nat := (st.built.filter (fun kv => kv.2)).length

/-- The summary line chosen at clib-build.c lines 606-614. -/
def summaryMsg (n : Nat) : String :=
  if n > 1 then "built " ++ toString n ++ " packages"
  else if n = 1 then "built 1 package"
  else "built 0 packages"

/-- `main` after option parsing (clib-build.c lines 564-617): with no
arguments build the working directory, otherwise run the argument loop;
then return the exit code together with the summary line — which is
printed only when the exit code is 0 and verbose is on (the whole
summary block sits inside `if (0 == rc)`). -/
def mainFinish (verbose : Bool) : Option (Int × BSt) → Option (Int × Option String × BSt)
  | none => none
  | some (rc, st) =>
    some (rc, if rc = 0 ∧ verbose then some (summaryMsg (totalBuilt st)) else none, st)

def mainBuild (env : BEnv) (fuel : Nat) (cwd : String) (args : List String)
    (verbose : Bool) : Option (Int × Option String × BSt) :=
  mainFinish verbose (match args with
    | [] => buildPkg env fuel cwd initBSt
    | _ => argsLoop env fuel args 0 initBSt)

/-! ## Invariants and measures for the build recursion -/

/-- Key containment between two registry states. -/
def keySub (b b' : List (String × Bool)) : Prop :=
  ∀ p, hashHas b p = true → hashHas b' p = true

/-- The registry only grows. -/
def stExt (st st' : BSt) : Prop := keySub st.built st'.built

/-- The work-log invariant: no path was worked twice, and every worked
path is recorded in the registry. -/
def logInv (st : BSt) : Prop :=
  st.log.Nodup ∧ ∀ p ∈ st.log, hashHas st.built p = true

/-- The number of manifest files not yet recorded in the registry: the
termination measure of the build recursion. -/
def unbuilt (env : BEnv) (st : BSt) : Nat :=
  (env.files.filter (fun kv => !hashHas st.built kv.1)).length

/-! ## Concrete instances used to evaluate the model -/

/-- An empty project: no manifest file anywhere. -/
def cexEnv : BEnv := ⟨[], fun s => s, fun _ => 0, "/d", false⟩

/-- A project where only the package named `good` is installed under the
output directory. -/
def cex8Env : BEnv :=
  ⟨[("/d/good/clib.json", CFile.pkg ⟨none, [], []⟩)], fun s => s, fun _ => 0, "/d", false⟩

/-- A cyclic dependency graph: package `a` depends on `b` and `b` depends
back on `a`, both installed under the output directory. -/
def env10 : BEnv :=
  ⟨[("/d/a/clib.json", CFile.pkg ⟨none, [⟨"x", "b", "1"⟩], []⟩),
    ("/d/b/clib.json", CFile.pkg ⟨none, [⟨"x", "a", "1"⟩], []⟩)],
   fun s => if s = "x/b@1" then "b" else "a", fun _ => 0, "/d", false⟩

/-- A project whose working directory holds a manifest without a build
command and with no dependencies. -/
def envOkW : BEnv :=
  ⟨[("/w/clib.json", CFile.pkg ⟨none, [], []⟩)], fun s => s, fun _ => 0, "/d", false⟩

/-- The state `mainBuild envOkW 5 "/w" [] true` ends in. -/
def stOkW : BSt :=
  ⟨[("__clib-build__", false), ("/w/clib.json", false)], ["/w/clib.json"]⟩

/-- A registry state that already holds the path `/d/a/clib.json`. -/
def bstW : BSt := ⟨[("/d/a/clib.json", true)], []⟩

/-! # Theorems -/

/-! ## Association-list lemmas for parson objects -/

theorem objGet_objSet_self (o : List (String × JVal)) (k : String) (v : JVal) :
    objGet (objSet o k v) k = some v := by
  induction o with
  | nil => simp [objSet, objGet]
  | cons kv rest ih =>
    obtain ⟨k', w⟩ := kv
    by_cases h : k' = k <;> simp [objSet, objGet, h, ih]

theorem objSet_objSet_same (o : List (String × JVal)) (k : String) (v : JVal) :
    objSet (objSet o k v) k v = objSet o k v := by
  induction o with
  | nil => simp [objSet]
  | cons kv rest ih =>
    obtain ⟨k', w⟩ := kv
    by_cases h : k' = k <;> simp [objSet, h, ih]

theorem objGet_objSet_ne (o : List (String × JVal)) (k q : String) (v : JVal)
    (h : q ≠ k) : objGet (objSet o k v) q = objGet o q := by
  have h' : ¬k = q := fun hh => h hh.symm
  induction o with
  | nil => simp [objSet, objGet, h']
  | cons kv rest ih =>
    obtain ⟨k', w⟩ := kv
    by_cases hk : k' = k
    · subst hk
      simp [objSet, objGet, h']
    · simp [objSet, objGet, hk, ih]

/-- Merging the same identity and version a second time leaves the
document unchanged. -/
theorem mergeDep_idem (o : List (String × JVal)) (sec repo ver : String) :
    mergeDep (mergeDep o sec repo ver) sec repo ver = mergeDep o sec repo ver := by
  unfold mergeDep getSectionObj
  rw [objGet_objSet_self]
  rw [show (match some (JVal.obj (objSet (match objGet o sec with
        | some (.obj d) => d
        | _ => []) repo (.str ver))) with
      | some (.obj d) => d
      | _ => []) = objSet (match objGet o sec with
        | some (.obj d) => d
        | _ => []) repo (.str ver) from rfl]
  rw [objSet_objSet_same, objSet_objSet_same]

/-! ## C5 — idempotent manifest merge -/

/-- C5: for every existing parseable manifest file (here: `clib.json`
parses to the object `o`), merging the same dependency identity and
version twice produces the same file content as merging it once — the
second merge is a byte-identical no-op — and every top-level key other
than the merged section is bound to the same value (hence serialized
byte-identically) after the merge as before it. -/
theorem C5_merge_idempotent (fs : MFs) (o : List (String × JVal))
    (sec repo ver k : String)
    (hfs : objGet fs "clib.json" = some (.obj o)) (hk : k ≠ sec) :
    (writeDependency (writeDependency fs sec repo ver).2 sec repo ver).2 =
      (writeDependency fs sec repo ver).2 ∧
    serializeFs (writeDependency (writeDependency fs sec repo ver).2 sec repo ver).2 =
      serializeFs (writeDependency fs sec repo ver).2 ∧
    objGet (mergeDep o sec repo ver) k = objGet o k := by
  have h1 : writeDependency fs sec repo ver =
      (0, objSet fs "clib.json" (.obj (mergeDep o sec repo ver))) := by
    unfold writeDependency writeDepFile
    rw [hfs]
    simp
  have h2 : writeDependency (objSet fs "clib.json" (.obj (mergeDep o sec repo ver)))
      sec repo ver =
      (0, objSet (objSet fs "clib.json" (.obj (mergeDep o sec repo ver))) "clib.json"
        (.obj (mergeDep (mergeDep o sec repo ver) sec repo ver))) := by
    unfold writeDependency writeDepFile
    rw [objGet_objSet_self]
    simp
  refine ⟨?_, ?_, ?_⟩
  · rw [h1]
    simp only
    rw [h2]
    simp only
    rw [mergeDep_idem, objSet_objSet_same]
  · rw [h1]
    simp only
    rw [h2]
    simp only
    rw [mergeDep_idem, objSet_objSet_same]
  · unfold mergeDep
    exact objGet_objSet_ne _ _ _ _ hk

theorem C5_witness :
    (writeDependency
        (writeDependency [("clib.json", JVal.obj [("name", JVal.str "x")])]
          "dependencies" "foo/bar" "1.0.0").2 "dependencies" "foo/bar" "1.0.0").2 =
      (writeDependency [("clib.json", JVal.obj [("name", JVal.str "x")])]
        "dependencies" "foo/bar" "1.0.0").2 ∧
    serializeFs (writeDependency
        (writeDependency [("clib.json", JVal.obj [("name", JVal.str "x")])]
          "dependencies" "foo/bar" "1.0.0").2 "dependencies" "foo/bar" "1.0.0").2 =
      serializeFs (writeDependency [("clib.json", JVal.obj [("name", JVal.str "x")])]
        "dependencies" "foo/bar" "1.0.0").2 ∧
    objGet (mergeDep [("name", JVal.str "x")] "dependencies" "foo/bar" "1.0.0") "name" =
      objGet [("name", JVal.str "x")] "name" :=
  C5_merge_idempotent [("clib.json", JVal.obj [("name", JVal.str "x")])]
    [("name", JVal.str "x")] "dependencies" "foo/bar" "1.0.0" "name" rfl (by decide)

/-! ## C6 — installing with no manifest present -/

/-- C6 counterexample: with no manifest file in the current directory,
the save step of a remote-slug install (`write_dependency`, reached from
`install_package` when no-save is unset) writes nothing at all — no
manifest is created, and the step fails with 1 (`json_parse_file` of a
missing file returns NULL for both candidate names).  The claim expects a
manifest containing `"foo/bar": "1.2.0"` to be created. -/
theorem C6_counterexample :
    (writeDependency [] "dependencies" "foo/bar" "1.2.0").2 = ([] : MFs) ∧
    (writeDependency [] "dependencies" "foo/bar" "1.2.0").1 = 1 :=
  ⟨rfl, rfl⟩

/-- C6 amended: when a parseable manifest does exist (here `clib.json`
parsing to object `o`), the install's save step updates it so that its
`dependencies` object contains the entry `repo -> version`; when no
manifest exists, nothing is created and the save step fails (its result
is ignored by `install_package`). -/
theorem C6_amended (fs : MFs) (o : List (String × JVal)) (repo ver : String)
    (hfs : objGet fs "clib.json" = some (.obj o)) :
    objGet (writeDependency fs "dependencies" repo ver).2 "clib.json" =
      some (.obj (mergeDep o "dependencies" repo ver)) ∧
    objGet (getSectionObj (mergeDep o "dependencies" repo ver) "dependencies") repo =
      some (.str ver) := by
  constructor
  · unfold writeDependency writeDepFile
    rw [hfs]
    simp
    rw [objGet_objSet_self]
  · unfold mergeDep getSectionObj
    rw [objGet_objSet_self]
    exact objGet_objSet_self _ _ _

theorem C6_witness :
    objGet (writeDependency [("clib.json", JVal.obj [])] "dependencies"
        "foo/bar" "1.2.0").2 "clib.json" =
      some (.obj (mergeDep [] "dependencies" "foo/bar" "1.2.0")) ∧
    objGet (getSectionObj (mergeDep [] "dependencies" "foo/bar" "1.2.0")
        "dependencies") "foo/bar" = some (.str "1.2.0") :=
  C6_amended [("clib.json", JVal.obj [])] [] "foo/bar" "1.2.0" rfl

/-! ## C4 — the install argument loop -/

/-- C4 counterexample: `install_packages` with two arguments, the first
of which fails resolution (`install_package` returns -1): the loop
returns 1 after processing only the first argument — the second argument
is never processed, contradicting the claim that one argument's failure
does not prevent processing of subsequent arguments. -/
theorem C4_counterexample :
    installPackagesModel [-1, 0] = (1, 1) ∧ (1 : Nat) ≠ 2 :=
  ⟨rfl, by decide⟩

/-- C4 amended: a resolution or fetch failure (an `install_package`
result of -1) for a top-level argument halts the orchestrator at once:
the failing argument is the last one processed and the exit status is 1;
when no argument fails that way, every argument is processed and the
exit status is 0. -/
theorem C4_amended :
    (∀ pre suf : List Int, (∀ r ∈ pre, r ≠ -1) →
      installPackagesModel (pre ++ -1 :: suf) = (1, pre.length + 1)) ∧
    (∀ rs : List Int, (∀ r ∈ rs, r ≠ -1) →
      installPackagesModel rs = (0, rs.length)) := by
  constructor
  · intro pre suf h
    induction pre with
    | nil => simp [installPackagesModel]
    | cons r rest ih =>
      have hr : ¬r = -1 := h r (by simp)
      have ih' := ih (fun x hx => h x (by simp [hx]))
      simp [installPackagesModel, hr, ih']
  · intro rs h
    induction rs with
    | nil => simp [installPackagesModel]
    | cons r rest ih =>
      have hr : ¬r = -1 := h r (by simp)
      have ih' := ih (fun x hx => h x (by simp [hx]))
      simp [installPackagesModel, hr, ih']

theorem C4_witness :
    installPackagesModel [0, -1, 5] = (1, 2) ∧
    installPackagesModel [0, 3] = (0, 2) :=
  ⟨C4_amended.1 [0] [5] (by decide), C4_amended.2 [0, 3] (by decide)⟩

/-! ## C9 — identity back-fill -/

/-- C9: evaluating the back-fill of clib-install.c lines 308-318 at the
failing input `foo/bar@1.2.0` (with `pkg->repo` NULL).  The buffer stored
into `pkg->repo` holds exactly the seven prefix bytes `foo/bar` and no
terminating NUL — `malloc(length)` + `memcpy(length)` with `length` the
offset of the `'@'` — so reading it back as a C string is undefined,
while the claim (and the intent, per the surrounding code and spec)
is the string `foo/bar`.  The no-`'@'` branch (`strdup`) is terminated
and correct. -/
theorem C9_backfill_missing_nul :
    backfillRepo "foo/bar@1.2.0" none = some ⟨"foo/bar".toList, false⟩ ∧
    backfillRepo "foo/bar" none = some ⟨"foo/bar".toList, true⟩ := by
  constructor <;> rfl

/-! ## C2 — first-failure retention in the batch executor -/

/-- C2 counterexample: a one-item batch whose worker fails with 1, run by
the threaded executor: the caller receives 0, not the worker's
non-success result — `pthread_join(thread, 0)` discards it and `rc` holds
the `pthread_create` status. -/
theorem C2_counterexample :
    (thrBatch (fun _ (n : Nat) => ((1 : Int), n + 1)) [()] 0).1 = 0 ∧
    (0 : Int) ≠ 1 :=
  ⟨rfl, by decide⟩

/-- C2 amended: the threaded batch executor returns the thread-creation
status — 0 — to its caller no matter what any worker returns; worker
non-success results are discarded at join and never reach the caller.
(Only the sequential compile mode returns a worker's non-success result,
and it stops launching further items when it sees one.) -/
theorem C2_amended (w : α → σ → Int × σ) (items : List α) (st : σ) :
    (thrBatch w items st).1 = 0 := by
  induction items generalizing st with
  | nil => rfl
  | cons a rest ih => exact ih (w a st).2

/-! ## C3 — sequential versus concurrent execution -/

/-- C3 counterexample: a two-item batch whose workers fail with 1, with
the state counting the items started: the sequential path returns the
failure after starting only the first item, while the threaded path
starts both and returns 0 — the processed set and the returned status
both differ. -/
theorem C3_counterexample :
    seqBatch (fun _ (n : Nat) => ((1 : Int), n + 1)) [(), ()] 0 ≠
    thrBatch (fun _ (n : Nat) => ((1 : Int), n + 1)) [(), ()] 0 := by
  decide

/-- C3 amended: the sequential and threaded paths agree — same final
state and same returned status — exactly when every worker invocation
succeeds; a failing worker makes them diverge (see the counterexample). -/
theorem C3_amended (w : α → σ → Int × σ) (items : List α) (st : σ)
    (h : ∀ a s, (w a s).1 = 0) :
    seqBatch w items st = thrBatch w items st := by
  induction items generalizing st with
  | nil => rfl
  | cons a rest ih =>
    unfold seqBatch thrBatch
    simp only [h a st, if_pos]
    exact ih (w a st).2

theorem C3_witness :
    seqBatch (fun _ (n : Nat) => ((0 : Int), n + 1)) [(), ()] 0 =
    thrBatch (fun _ (n : Nat) => ((0 : Int), n + 1)) [(), ()] 0 :=
  C3_amended _ [(), ()] 0 (fun _ _ => rfl)

/-! ## C1 — the deduplication registry under races -/

/-- One task step preserves the per-task invariant, whatever the registry
holds. -/
theorem dTaskStep_inv (c : Bool) (t : DTask) (h : dInv t) :
    dInv (dTaskStep c t).2 := by
  obtain ⟨h1, h2⟩ := h
  unfold dTaskStep dInv
  by_cases hp0 : t.pc = 0
  · obtain ⟨hw, hs⟩ := h2 hp0
    cases c <;> simp [hp0, hw, hs]
  · by_cases hp1 : t.pc = 1
    · have hs : t.skipped = false := by
        cases hsk : t.skipped
        · rfl
        · exact absurd (h1 hsk).1 (by omega)
      simp [hp0, hp1, hs]
    · by_cases hp2 : t.pc = 2
      · have hs : t.skipped = false := by
          cases hsk : t.skipped
          · rfl
          · exact absurd (h1 hsk).1 (by omega)
        simp [hp0, hp1, hp2, hs]
      · simp only [hp0, hp1, hp2, if_false]
        exact ⟨h1, fun h => h.elim⟩

/-- After any schedule, both tasks satisfy the invariant. -/
theorem dRun_inv (sched : List Bool) :
    dInv (dRun sched).t0 ∧ dInv (dRun sched).t1 := by
  have hgen : ∀ (l : List Bool) (s : DSys), dInv s.t0 → dInv s.t1 →
      dInv (l.foldl dStep s).t0 ∧ dInv (l.foldl dStep s).t1 := by
    intro l
    induction l with
    | nil => exact fun s h0 h1 => ⟨h0, h1⟩
    | cons b rest ih =>
      intro s h0 h1
      apply ih
      · cases b
        · simp [dStep]
          exact dTaskStep_inv _ _ h0
        · simp [dStep]
          exact h0
      · cases b
        · simp [dStep]
          exact h1
        · simp [dStep]
          exact dTaskStep_inv _ _ h1
  exact hgen sched dInit ⟨by simp [dInit], by simp [dInit]⟩ ⟨by simp [dInit], by simp [dInit]⟩

/-- C1 counterexample: an interleaved schedule for two tasks racing on
the same unseen path — both pass the check before either performs the
set, and both execute the build/install work, refuting the claim that
the check-then-set serializes so that exactly one task performs the
work. -/
theorem C1_counterexample :
    (dRun [false, true, false, true, false, true]).t0.workDone = true ∧
    (dRun [false, true, false, true, false, true]).t1.workDone = true :=
  ⟨rfl, rfl⟩

/-- C1 amended: once a path's key has left the unseen state, a task
whose registry check runs afterwards (it sees the key and skips) never
executes the build/install work for that path; but because the check and
the set are separate critical sections, two tasks racing on the same
unseen key may each perform the work — at-most-once holds only when the
check-to-set regions do not interleave, as in the serialized schedule of
the last conjunct, where exactly one task works. -/
theorem C1_amended (sched : List Bool) :
    ((dRun sched).t0.skipped = true → (dRun sched).t0.workDone = false) ∧
    ((dRun sched).t1.skipped = true → (dRun sched).t1.workDone = false) ∧
    ((dRun [false, false, false, true]).t0.workDone = true ∧
      (dRun [false, false, false, true]).t1.workDone = false) := by
  obtain ⟨h0, h1⟩ := dRun_inv sched
  exact ⟨fun hs => (h0.1 hs).2, fun hs => (h1.1 hs).2, rfl, rfl⟩

theorem C1_witness :
    (dRun [false, false, false, true]).t1.skipped = true ∧
    (dRun [false, false, false, true]).t1.workDone = false :=
  ⟨rfl, (C1_amended [false, false, false, true]).2.1 rfl⟩

/-! ## Registry lemmas for the build tool -/

theorem hashHas_hashSet_iff (b : List (String × Bool)) (k q : String) (v : Bool) :
    hashHas (hashSet b k v) q = true ↔ (k = q ∨ hashHas b q = true) := by
  induction b with
  | nil => by_cases h : k = q <;> simp [hashSet, hashHas, h]
  | cons kv rest ih =>
    obtain ⟨k', w⟩ := kv
    by_cases hk : k' = k
    · subst hk
      by_cases hq : k' = q <;> simp [hashSet, hashHas, hq]
    · by_cases hq : k' = q
      · subst hq
        simp [hashSet, hashHas, hk]
      · simp [hashSet, hashHas, hk, hq, ih]

theorem keySub_refl (b : List (String × Bool)) : keySub b b := fun _ h => h

theorem keySub_trans {a b c : List (String × Bool)}
    (h1 : keySub a b) (h2 : keySub b c) : keySub a c :=
  fun p hp => h2 p (h1 p hp)

theorem keySub_hashSet (b : List (String × Bool)) (k : String) (v : Bool) :
    keySub b (hashSet b k v) :=
  fun p hp => (hashHas_hashSet_iff b k p v).mpr (Or.inr hp)

theorem stExt_refl (st : BSt) : stExt st st := keySub_refl _

theorem stExt_trans {s1 s2 s3 : BSt} (h1 : stExt s1 s2) (h2 : stExt s2 s3) :
    stExt s1 s3 :=
  keySub_trans h1 h2

/-- Recording a path (with any log) only extends the registry. -/
theorem stExt_record (st : BSt) (path : String) (v : Bool) (lg : List String) :
    stExt st ⟨hashSet st.built path v, lg⟩ :=
  keySub_hashSet st.built path v

/-! ## The registry only grows along the build recursion -/

theorem runDeps_ext (env : BEnv) (recur : String → BSt → Option (Int × BSt))
    (hext : ∀ d s r, recur d s = some r → stExt s r.2) :
    ∀ (deps : List CDep) (st : BSt) (r : Int × BSt),
      runDeps env recur deps st = some r → stExt st r.2 := by
  intro deps
  induction deps with
  | nil =>
    intro st r h
    unfold runDeps at h
    injection h with h'
    rw [← h']
    exact stExt_refl st
  | cons d rest ih =>
    intro st r h
    unfold runDeps at h
    split at h
    · exact absurd h (by simp)
    · rename_i rc st1 heq
      split at h
      · exact stExt_trans (hext _ _ _ heq) (ih st1 r h)
      · injection h with h'
        rw [← h']
        exact hext _ _ _ heq

theorem afterDeps_ext (env : BEnv) (recur : String → BSt → Option (Int × BSt))
    (hext : ∀ d s r, recur d s = some r → stExt s r.2) (p : CPkg)
    (rc1 : Int) (st2 : BSt) (r : Int × BSt)
    (h : afterDeps env recur p (some (rc1, st2)) = some r) : stExt st2 r.2 := by
  simp only [afterDeps] at h
  by_cases h1 : rc1 = 0
  · rw [if_pos h1] at h
    by_cases hdev : env.dev = true
    · rw [if_pos hdev] at h
      exact runDeps_ext env recur hext _ _ _ h
    · rw [if_neg hdev] at h
      injection h with h'
      rw [← h']
      exact stExt_refl st2
  · rw [if_neg h1] at h
    injection h with h'
    rw [← h']
    exact stExt_refl st2

theorem bodyWork_ext (env : BEnv) (recur : String → BSt → Option (Int × BSt))
    (hext : ∀ d s r, recur d s = some r → stExt s r.2)
    (path : String) (p : CPkg) (st1 : BSt) (r : Int × BSt)
    (h : bodyWork env recur path p st1 = some r) : stExt st1 r.2 := by
  unfold bodyWork at h
  by_cases hrc : buildRc env path p = 0
  · rw [if_pos hrc] at h
    cases hd : runDeps env recur p.deps st1 with
    | none => rw [hd] at h; simp [afterDeps] at h
    | some pr =>
      rw [hd] at h
      obtain ⟨rc1, st2⟩ := pr
      exact stExt_trans (runDeps_ext env recur hext _ _ _ hd)
        (afterDeps_ext env recur hext p rc1 st2 r h)
  · rw [if_neg hrc] at h
    injection h with h'
    rw [← h']
    exact stExt_refl st1

theorem bodyDispatch_ext (env : BEnv) (recur : String → BSt → Option (Int × BSt))
    (hext : ∀ d s r, recur d s = some r → stExt s r.2)
    (path : String) (st : BSt) :
    ∀ (f : Option CFile) (r : Int × BSt),
      bodyDispatch env recur path st f = some r → stExt st r.2 := by
  intro f r h
  cases f with
  | none =>
    simp only [bodyDispatch] at h
    injection h with h'
    rw [← h']
    exact stExt_refl st
  | some g =>
    cases g with
    | bad =>
      simp only [bodyDispatch] at h
      injection h with h'
      rw [← h']
      exact stExt_refl st
    | pkg p =>
      simp only [bodyDispatch] at h
      exact stExt_trans (stExt_record st path p.makefile.isSome (st.log ++ [path]))
        (bodyWork_ext env recur hext path p _ r h)

theorem bodyFile_ext (env : BEnv) (recur : String → BSt → Option (Int × BSt))
    (hext : ∀ d s r, recur d s = some r → stExt s r.2)
    (dir file : String) (st : BSt) (r : Int × BSt)
    (h : bodyFile env recur dir file st = some r) : stExt st r.2 := by
  unfold bodyFile at h
  by_cases hhit : hashHas st.built (pathJoin dir file) = true
  · rw [if_pos hhit] at h
    injection h with h'
    rw [← h']
    exact stExt_refl st
  · rw [if_neg hhit] at h
    exact bodyDispatch_ext env recur hext _ st _ r h

theorem buildSecond_ext (env : BEnv) (recur : String → BSt → Option (Int × BSt))
    (hext : ∀ d s r, recur d s = some r → stExt s r.2)
    (dir : String) (x : Option (Int × BSt)) (st : BSt) (r : Int × BSt)
    (hx : ∀ y, x = some y → stExt st y.2)
    (h : buildSecond env recur dir x = some r) : stExt st r.2 := by
  cases x with
  | none => simp [buildSecond] at h
  | some pr =>
    obtain ⟨rc, st1⟩ := pr
    have h1 : stExt st st1 := hx (rc, st1) rfl
    simp only [buildSecond] at h
    by_cases hrc : rc = 0
    · rw [if_pos hrc] at h
      injection h with h'
      rw [← h']
      exact h1
    · rw [if_neg hrc] at h
      exact stExt_trans h1 (bodyFile_ext env recur hext dir _ st1 r h)

theorem buildPkg_ext (env : BEnv) :
    ∀ (n : Nat) (dir : String) (st : BSt) (r : Int × BSt),
      buildPkg env n dir st = some r → stExt st r.2 := by
  intro n
  induction n with
  | zero =>
    intro dir st r h
    exact absurd h (by simp [buildPkg])
  | succ n ih =>
    intro dir st r h
    have hext : ∀ d s rr, buildPkg env n d s = some rr → stExt s rr.2 :=
      fun d s rr hr => ih d s rr hr
    unfold buildPkg at h
    exact buildSecond_ext env _ hext dir _ st r
      (fun y hy => bodyFile_ext env _ hext dir "clib.json" st y hy) h

/-! ## The termination measure -/

theorem length_filter_mono {α : Type} (l : List α) (p q : α → Bool)
    (h : ∀ x ∈ l, q x = true → p x = true) :
    (l.filter q).length ≤ (l.filter p).length := by
  induction l with
  | nil => simp
  | cons a rest ih =>
    have ih' := ih (fun x hx hq => h x (List.mem_cons_of_mem a hx) hq)
    by_cases hq : q a = true
    · have hp := h a (List.mem_cons_self a rest) hq
      simp [List.filter_cons, hq, hp]
      omega
    · by_cases hp : p a = true <;> simp [List.filter_cons, hq, hp] <;> omega

theorem length_filter_strict {α : Type} (l : List α) (p q : α → Bool)
    (h : ∀ x ∈ l, q x = true → p x = true)
    (x : α) (hx : x ∈ l) (hpx : p x = true) (hqx : q x = false) :
    (l.filter q).length < (l.filter p).length := by
  induction l with
  | nil => cases hx
  | cons a rest ih =>
    have hmono := length_filter_mono rest p q
      (fun y hy hqy => h y (List.mem_cons_of_mem a hy) hqy)
    rcases List.mem_cons.mp hx with hax | hxrest
    · subst hax
      simp [List.filter_cons, hpx, hqx]
      omega
    · have ih' := ih (fun y hy hqy => h y (List.mem_cons_of_mem a hy) hqy) hxrest
      by_cases hq : q a = true
      · have hp := h a (List.mem_cons_self a rest) hq
        simp [List.filter_cons, hq, hp]
        omega
      · by_cases hp : p a = true <;> simp [List.filter_cons, hq, hp] <;> omega

theorem unbuilt_mono (env : BEnv) (st st' : BSt) (h : stExt st st') :
    unbuilt env st' ≤ unbuilt env st := by
  unfold unbuilt
  apply length_filter_mono
  intro kv _ hq
  simp only [Bool.not_eq_true'] at hq ⊢
  cases hh : hashHas st.built kv.1
  · rfl
  · rw [h kv.1 hh] at hq
    cases hq

theorem lookupFile_mem :
    ∀ (l : List (String × CFile)) (q : String) (f : CFile),
      lookupFile l q = some f → (q, f) ∈ l := by
  intro l
  induction l with
  | nil => intro q f h; cases h
  | cons kv rest ih =>
    intro q f h
    obtain ⟨k, g⟩ := kv
    unfold lookupFile at h
    by_cases hk : k = q
    · rw [if_pos hk] at h
      injection h with h'
      subst hk
      subst h'
      exact List.mem_cons_self _ _
    · rw [if_neg hk] at h
      exact List.mem_cons_of_mem _ (ih q f h)

/-- Recording a path that names an existing manifest file and was not in
the registry strictly decreases the measure. -/
theorem unbuilt_dec (env : BEnv) (st : BSt) (path : String) (f : CFile) (v : Bool)
    (lg : List String) (hf : lookupFile env.files path = some f)
    (hnot : hashHas st.built path = false) :
    unbuilt env ⟨hashSet st.built path v, lg⟩ < unbuilt env st := by
  unfold unbuilt
  apply length_filter_strict env.files _ _ _ (path, f)
    (lookupFile_mem env.files path f hf)
  · simp [hnot]
  · simp [(hashHas_hashSet_iff st.built path path v).mpr (Or.inl rfl)]
  · intro kv hkv hq
    simp only [Bool.not_eq_true'] at hq ⊢
    cases hh : hashHas st.built kv.1
    · rfl
    · rw [(hashHas_hashSet_iff st.built path kv.1 v).mpr (Or.inr hh)] at hq
      cases hq

/-! ## Sufficient fuel: the recursion terminates on every graph -/

theorem runDeps_isSome (env : BEnv) (recur : String → BSt → Option (Int × BSt)) (n : Nat)
    (hext : ∀ d s r, recur d s = some r → stExt s r.2)
    (hsome : ∀ d s, 2 * unbuilt env s + 2 ≤ n → (recur d s).isSome = true) :
    ∀ (deps : List CDep) (st : BSt), 2 * unbuilt env st + 2 ≤ n →
      (runDeps env recur deps st).isSome = true := by
  intro deps
  induction deps with
  | nil =>
    intro st _
    simp [runDeps]
  | cons d rest ih =>
    intro st hb
    unfold runDeps
    cases hrec : recur (depDir env d) st with
    | none =>
      have h2 := hsome (depDir env d) st hb
      rw [hrec] at h2
      simp at h2
    | some pr =>
      obtain ⟨rc, st1⟩ := pr
      show (if rc = 0 then runDeps env recur rest st1 else some (rc, st1)).isSome = true
      by_cases hrc : rc = 0
      · rw [if_pos hrc]
        apply ih st1
        have hle := unbuilt_mono env st st1 (hext _ _ _ hrec)
        omega
      · rw [if_neg hrc]
        simp

theorem afterDeps_isSome (env : BEnv) (recur : String → BSt → Option (Int × BSt)) (n : Nat)
    (hext : ∀ d s r, recur d s = some r → stExt s r.2)
    (hsome : ∀ d s, 2 * unbuilt env s + 2 ≤ n → (recur d s).isSome = true)
    (p : CPkg) (rc1 : Int) (st2 : BSt) (hb : 2 * unbuilt env st2 + 2 ≤ n) :
    (afterDeps env recur p (some (rc1, st2))).isSome = true := by
  simp only [afterDeps]
  by_cases h1 : rc1 = 0
  · rw [if_pos h1]
    by_cases hdev : env.dev = true
    · rw [if_pos hdev]
      exact runDeps_isSome env recur n hext hsome p.devDeps st2 hb
    · rw [if_neg hdev]
      simp
  · rw [if_neg h1]
    simp

theorem bodyWork_isSome (env : BEnv) (recur : String → BSt → Option (Int × BSt)) (n : Nat)
    (hext : ∀ d s r, recur d s = some r → stExt s r.2)
    (hsome : ∀ d s, 2 * unbuilt env s + 2 ≤ n → (recur d s).isSome = true)
    (path : String) (p : CPkg) (st1 : BSt) (hb : 2 * unbuilt env st1 + 2 ≤ n) :
    (bodyWork env recur path p st1).isSome = true := by
  unfold bodyWork
  by_cases hrc : buildRc env path p = 0
  · rw [if_pos hrc]
    cases hd : runDeps env recur p.deps st1 with
    | none =>
      have h2 := runDeps_isSome env recur n hext hsome p.deps st1 hb
      rw [hd] at h2
      simp at h2
    | some pr =>
      obtain ⟨rc1, st2⟩ := pr
      apply afterDeps_isSome env recur n hext hsome p rc1 st2
      have hle := unbuilt_mono env st1 st2 (runDeps_ext env recur hext _ _ _ hd)
      omega
  · rw [if_neg hrc]
    simp

theorem bodyFile_isSome (env : BEnv) (recur : String → BSt → Option (Int × BSt)) (n : Nat)
    (hext : ∀ d s r, recur d s = some r → stExt s r.2)
    (hsome : ∀ d s, 2 * unbuilt env s + 2 ≤ n → (recur d s).isSome = true)
    (dir file : String) (st : BSt) (hb : 2 * unbuilt env st + 1 ≤ n) :
    (bodyFile env recur dir file st).isSome = true := by
  unfold bodyFile
  by_cases hhit : hashHas st.built (pathJoin dir file) = true
  · rw [if_pos hhit]
    simp
  · rw [if_neg hhit]
    have hnot : hashHas st.built (pathJoin dir file) = false := by
      cases hx : hashHas st.built (pathJoin dir file)
      · rfl
      · exact absurd hx hhit
    cases hf : lookupFile env.files (pathJoin dir file) with
    | none => simp [bodyDispatch]
    | some g =>
      cases g with
      | bad => simp [bodyDispatch]
      | pkg p =>
        simp only [bodyDispatch]
        have hlt := unbuilt_dec env st (pathJoin dir file) (CFile.pkg p)
          p.makefile.isSome (st.log ++ [pathJoin dir file]) hf hnot
        apply bodyWork_isSome env recur n hext hsome
        omega

theorem buildSecond_isSome (env : BEnv) (recur : String → BSt → Option (Int × BSt)) (n : Nat)
    (hext : ∀ d s r, recur d s = some r → stExt s r.2)
    (hsome : ∀ d s, 2 * unbuilt env s + 2 ≤ n → (recur d s).isSome = true)
    (dir : String) (st : BSt) (x : Option (Int × BSt))
    (hx : ∀ y, x = some y → stExt st y.2) (hxs : x.isSome = true)
    (hb : 2 * unbuilt env st + 1 ≤ n) :
    (buildSecond env recur dir x).isSome = true := by
  cases x with
  | none => simp at hxs
  | some pr =>
    obtain ⟨rc, st1⟩ := pr
    simp only [buildSecond]
    by_cases hrc : rc = 0
    · rw [if_pos hrc]
      simp
    · rw [if_neg hrc]
      apply bodyFile_isSome env recur n hext hsome
      have hle := unbuilt_mono env st st1 (hx (rc, st1) rfl)
      omega

theorem buildPkg_isSome (env : BEnv) :
    ∀ (n : Nat) (dir : String) (st : BSt), 2 * unbuilt env st + 2 ≤ n →
      (buildPkg env n dir st).isSome = true := by
  intro n
  induction n with
  | zero =>
    intro dir st h
    exact absurd h (by omega)
  | succ n ih =>
    intro dir st hb
    have hext : ∀ d s r, buildPkg env n d s = some r → stExt s r.2 :=
      fun d s r hr => buildPkg_ext env n d s r hr
    have hsome : ∀ d s, 2 * unbuilt env s + 2 ≤ n → (buildPkg env n d s).isSome = true :=
      fun d s hbb => ih d s hbb
    unfold buildPkg
    apply buildSecond_isSome env _ n hext hsome dir st
    · intro y hy
      exact bodyFile_ext env _ hext dir "clib.json" st y hy
    · apply bodyFile_isSome env _ n hext hsome dir "clib.json" st
      omega
    · omega

/-! ## The work log: the work runs at most once per path -/

theorem logInv_record (st : BSt) (path : String) (v : Bool)
    (hinv : logInv st) (hnot : hashHas st.built path = false) :
    logInv ⟨hashSet st.built path v, st.log ++ [path]⟩ := by
  unfold logInv at hinv ⊢
  obtain ⟨hnd, hsub⟩ := hinv
  constructor
  · rw [List.nodup_append]
    refine ⟨hnd, List.nodup_singleton path, ?_⟩
    intro a ha hb
    rw [List.mem_singleton] at hb
    subst hb
    rw [hsub a ha] at hnot
    cases hnot
  · intro p hp
    rcases List.mem_append.mp hp with h1 | h1
    · exact (hashHas_hashSet_iff _ _ _ _).mpr (Or.inr (hsub p h1))
    · rw [List.mem_singleton] at h1
      subst h1
      exact (hashHas_hashSet_iff _ _ _ _).mpr (Or.inl rfl)

theorem runDeps_logInv (env : BEnv) (recur : String → BSt → Option (Int × BSt))
    (hli : ∀ d s r, recur d s = some r → logInv s → logInv r.2) :
    ∀ (deps : List CDep) (st : BSt) (r : Int × BSt),
      runDeps env recur deps st = some r → logInv st → logInv r.2 := by
  intro deps
  induction deps with
  | nil =>
    intro st r h hinv
    unfold runDeps at h
    injection h with h'
    rw [← h']
    exact hinv
  | cons d rest ih =>
    intro st r h hinv
    unfold runDeps at h
    split at h
    · exact absurd h (by simp)
    · rename_i rc st1 heq
      split at h
      · exact ih st1 r h (hli _ _ _ heq hinv)
      · injection h with h'
        rw [← h']
        exact hli _ _ _ heq hinv

theorem afterDeps_logInv (env : BEnv) (recur : String → BSt → Option (Int × BSt))
    (hli : ∀ d s r, recur d s = some r → logInv s → logInv r.2)
    (p : CPkg) (rc1 : Int) (st2 : BSt) (r : Int × BSt)
    (h : afterDeps env recur p (some (rc1, st2)) = some r) (hinv : logInv st2) :
    logInv r.2 := by
  simp only [afterDeps] at h
  by_cases h1 : rc1 = 0
  · rw [if_pos h1] at h
    by_cases hdev : env.dev = true
    · rw [if_pos hdev] at h
      exact runDeps_logInv env recur hli _ _ _ h hinv
    · rw [if_neg hdev] at h
      injection h with h'
      rw [← h']
      exact hinv
  · rw [if_neg h1] at h
    injection h with h'
    rw [← h']
    exact hinv

theorem bodyWork_logInv (env : BEnv) (recur : String → BSt → Option (Int × BSt))
    (hli : ∀ d s r, recur d s = some r → logInv s → logInv r.2)
    (path : String) (p : CPkg) (st1 : BSt) (r : Int × BSt)
    (h : bodyWork env recur path p st1 = some r) (hinv : logInv st1) : logInv r.2 := by
  unfold bodyWork at h
  by_cases hrc : buildRc env path p = 0
  · rw [if_pos hrc] at h
    cases hd : runDeps env recur p.deps st1 with
    | none =>
      rw [hd] at h
      simp [afterDeps] at h
    | some pr =>
      rw [hd] at h
      obtain ⟨rc1, st2⟩ := pr
      exact afterDeps_logInv env recur hli p rc1 st2 r h
        (runDeps_logInv env recur hli _ _ _ hd hinv)
  · rw [if_neg hrc] at h
    injection h with h'
    rw [← h']
    exact hinv

theorem bodyDispatch_logInv (env : BEnv) (recur : String → BSt → Option (Int × BSt))
    (hli : ∀ d s r, recur d s = some r → logInv s → logInv r.2)
    (path : String) (st : BSt) (hnot : hashHas st.built path = false) :
    ∀ (f : Option CFile) (r : Int × BSt),
      bodyDispatch env recur path st f = some r → logInv st → logInv r.2 := by
  intro f r h hinv
  cases f with
  | none =>
    simp only [bodyDispatch] at h
    injection h with h'
    rw [← h']
    exact hinv
  | some g =>
    cases g with
    | bad =>
      simp only [bodyDispatch] at h
      injection h with h'
      rw [← h']
      exact hinv
    | pkg p =>
      simp only [bodyDispatch] at h
      exact bodyWork_logInv env recur hli path p _ r h
        (logInv_record st path p.makefile.isSome hinv hnot)

theorem bodyFile_logInv (env : BEnv) (recur : String → BSt → Option (Int × BSt))
    (hli : ∀ d s r, recur d s = some r → logInv s → logInv r.2)
    (dir file : String) (st : BSt) (r : Int × BSt)
    (h : bodyFile env recur dir file st = some r) (hinv : logInv st) : logInv r.2 := by
  unfold bodyFile at h
  by_cases hhit : hashHas st.built (pathJoin dir file) = true
  · rw [if_pos hhit] at h
    injection h with h'
    rw [← h']
    exact hinv
  · rw [if_neg hhit] at h
    have hnot : hashHas st.built (pathJoin dir file) = false := by
      cases hx : hashHas st.built (pathJoin dir file)
      · rfl
      · exact absurd hx hhit
    exact bodyDispatch_logInv env recur hli _ st hnot _ r h hinv

theorem buildSecond_logInv (env : BEnv) (recur : String → BSt → Option (Int × BSt))
    (hli : ∀ d s r, recur d s = some r → logInv s → logInv r.2)
    (dir : String) (x : Option (Int × BSt)) (r : Int × BSt)
    (hx : ∀ y, x = some y → logInv y.2)
    (h : buildSecond env recur dir x = some r) : logInv r.2 := by
  cases x with
  | none => simp [buildSecond] at h
  | some pr =>
    obtain ⟨rc, st1⟩ := pr
    simp only [buildSecond] at h
    by_cases hrc : rc = 0
    · rw [if_pos hrc] at h
      injection h with h'
      rw [← h']
      exact hx (rc, st1) rfl
    · rw [if_neg hrc] at h
      exact bodyFile_logInv env recur hli dir _ st1 r h (hx (rc, st1) rfl)

theorem buildPkg_logInv (env : BEnv) :
    ∀ (n : Nat) (dir : String) (st : BSt) (r : Int × BSt),
      buildPkg env n dir st = some r → logInv st → logInv r.2 := by
  intro n
  induction n with
  | zero =>
    intro dir st r h _
    exact absurd h (by simp [buildPkg])
  | succ n ih =>
    intro dir st r h hinv
    have hli : ∀ d s rr, buildPkg env n d s = some rr → logInv s → logInv rr.2 :=
      fun d s rr hr hs => ih d s rr hr hs
    unfold buildPkg at h
    exact buildSecond_logInv env _ hli dir _ r
      (fun y hy => bodyFile_logInv env _ hli dir "clib.json" st y hy hinv) h

/-! ## C10 — registry-before-recursion, at-most-once, termination -/

theorem logInv_initBSt : logInv initBSt := by
  unfold logInv initBSt
  constructor
  · simp
  · intro p hp
    simp at hp

/-- C10: in the build tool, (i) a path already present in the `built`
registry is skipped immediately — the body returns 0 at once leaving the
state untouched; (ii) because a directory's path is recorded in the
registry (as built or not-built) before recursing into that package's
dependencies, fuel `2 * unbuilt + 2` always suffices, so the recursive
traversal terminates even when the dependency graph contains cycles;
(iii) the build/install work executes at most once per path in a run:
starting from any state satisfying the log invariant (in particular the
initial state, whose log is empty), the work log stays duplicate-free. -/
theorem C10_dedup_terminates :
    (∀ (env : BEnv) (recur : String → BSt → Option (Int × BSt)) (dir file : String)
        (st : BSt), hashHas st.built (pathJoin dir file) = true →
      bodyFile env recur dir file st = some (0, st)) ∧
    (∀ (env : BEnv) (n : Nat) (dir : String) (st : BSt),
      2 * unbuilt env st + 2 ≤ n → (buildPkg env n dir st).isSome = true) ∧
    (∀ (env : BEnv) (n : Nat) (dir : String) (st : BSt) (r : Int × BSt),
      buildPkg env n dir st = some r → logInv st → r.2.log.Nodup) := by
  refine ⟨?_, ?_, ?_⟩
  · intro env recur dir file st h
    unfold bodyFile
    rw [if_pos h]
  · exact fun env n dir st hb => buildPkg_isSome env n dir st hb
  · intro env n dir st r h hinv
    have hv := buildPkg_logInv env n dir st r h hinv
    unfold logInv at hv
    exact hv.1

theorem C10_witness :
    bodyFile env10 (fun _ s => some (0, s)) "/d/a" "clib.json" bstW = some (0, bstW) ∧
    (buildPkg env10 6 "/d/a" initBSt).isSome = true ∧
    List.Nodup ["/d/a/clib.json", "/d/b/clib.json"] :=
  ⟨C10_dedup_terminates.1 env10 (fun _ s => some (0, s)) "/d/a" "clib.json" bstW rfl,
   C10_dedup_terminates.2.1 env10 6 "/d/a" initBSt (by decide),
   C10_dedup_terminates.2.2 env10 6 "/d/a" initBSt
     ((0 : Int), (⟨[("__clib-build__", false), ("/d/a/clib.json", false),
        ("/d/b/clib.json", false)],
       ["/d/a/clib.json", "/d/b/clib.json"]⟩ : BSt)) rfl logInv_initBSt⟩

/-! ## C7 — the summary line -/

/-- C7 counterexample: a build run with no arguments in a directory
lacking any manifest: both candidate names fail with `-ENOENT`, `main`
returns the non-zero code — but prints no summary at all, because the
whole summary block sits inside `if (0 == rc)`.  The claim expects a
"built 0 packages" line to be printed regardless of failure. -/
theorem C7_counterexample :
    mainBuild cexEnv 5 "/w" [] true = some (-2, none, initBSt) ∧
    (none : Option String) ≠ some "built 0 packages" := by
  constructor
  · rfl
  · simp

theorem mainFinish_inv (verbose : Bool) (x : Option (Int × BSt)) (rc : Int)
    (msg : Option String) (st : BSt) (h : mainFinish verbose x = some (rc, msg, st)) :
    (rc ≠ 0 → msg = none) ∧
    (rc = 0 → verbose = true → msg = some (summaryMsg (totalBuilt st))) := by
  cases x with
  | none => simp [mainFinish] at h
  | some pr =>
    obtain ⟨rc', st'⟩ := pr
    simp only [mainFinish, Option.some.injEq, Prod.mk.injEq] at h
    obtain ⟨h1, h2, h3⟩ := h
    subst h1
    subst h3
    constructor
    · intro hne
      rw [← h2, if_neg]
      intro hc
      exact hne hc.1
    · intro h0 hv
      rw [← h2, if_pos ⟨h0, hv⟩]

/-- C7 amended: the build tool prints the human-readable count of built
packages only when the run's final code is 0 (and verbose output is on);
in particular a build run in a directory lacking any manifest exits
non-zero and prints no summary at all. -/
theorem C7_amended (env : BEnv) (fuel : Nat) (cwd : String) (args : List String)
    (verbose : Bool) (rc : Int) (msg : Option String) (st : BSt)
    (h : mainBuild env fuel cwd args verbose = some (rc, msg, st)) :
    (rc ≠ 0 → msg = none) ∧
    (rc = 0 → verbose = true → msg = some (summaryMsg (totalBuilt st))) := by
  unfold mainBuild at h
  exact mainFinish_inv verbose _ rc msg st h

theorem C7_witness :
    (none : Option String) = none ∧
    some "built 0 packages" = some (summaryMsg (totalBuilt stOkW)) :=
  ⟨(C7_amended cexEnv 5 "/w" [] true (-2) none initBSt rfl).1 (by decide),
   (C7_amended envOkW 5 "/w" [] true 0 (some "built 0 packages") stOkW rfl).2 rfl rfl⟩

/-! ## C8 — the exit code of the argument loop -/

/-- C8 counterexample: two arguments where the first argument's build
fails (`-ENOENT` everywhere, including the slug retry) and the second
succeeds: the loop overwrites `rc` on every iteration, so the process
exits 0 even though the first per-argument build failed — the exit code
does not equal the first failure encountered. -/
theorem C8_counterexample :
    (mainBuild cex8Env 6 "/w" ["bad", "good"] true).map (fun r => r.1) = some 0 ∧
    (buildAttempt cex8Env 6 "bad" initBSt).map (fun r => r.1) = some (-2) ∧
    ((-2 : Int) ≠ 0) :=
  ⟨rfl, rfl, by decide⟩

/-- C8 amended: the process exit code equals the result of the LAST
argument's build attempt, run in the state the earlier arguments left
behind — each iteration overwrites `rc`, so earlier failures are lost;
it is 0 when every argument succeeds (the surviving part of the original
claim), but also 0 whenever just the last attempt succeeds. -/
theorem C8_amended (env : BEnv) (fuel : Nat) (front : List String) (a : String)
    (rc0 : Int) (st : BSt) :
    argsLoop env fuel (front ++ [a]) rc0 st =
      match argsLoop env fuel front rc0 st with
      | none => none
      | some (_, st') => buildAttempt env fuel a st' := by
  induction front generalizing rc0 st with
  | nil =>
    simp only [List.nil_append, argsLoop]
    cases hatt : buildAttempt env fuel a st with
    | none => rfl
    | some pr =>
      obtain ⟨rc', st'⟩ := pr
      rfl
  | cons b rest ih =>
    simp only [List.cons_append, argsLoop]
    cases hb : buildAttempt env fuel b st with
    | none => rfl
    | some pr =>
      obtain ⟨rc', st'⟩ := pr
      exact ih rc' st'

end Clib
